import Mathlib

/-!
Shallow embedding of `src/chat_analyzer.py` (class `ChatDataAnalyzer`).

The nested JSON input is modelled by structures whose fields are `Option`s:
a `none` field corresponds to an absent JSON key, so Python's
`dict.get(key, default)` becomes `Option.getD`.  The pandas DataFrame is
modelled as a `List` of records; the two `pd.to_datetime` column conversions
become a traversal in the `Except` monad that fails as soon as one cell
fails, exactly like the vectorised pandas call.
-/

namespace ChatAnalyzer

/-- One prompt/response exchange as it appears in the JSON under
`chat_data`; every key may be absent. -/
structure ChatTurn where
  input_prompt : Option String
  output_response : Option String
  timestamp : Option String
  input_tokens : Option Int
  output_tokens : Option Int
  total_tokens : Option Int
deriving DecidableEq, Repr

/-- One entry of `chat_history`; every key may be absent.  The JSON key
`datetime` holds the session start datetime string. -/
structure ChatSession where
  user_id : Option String
  project_id : Option String
  session_id : Option String
  datetime : Option String
  session_total_tokens : Option Int
  chat_data : Option (List ChatTurn)
deriving DecidableEq, Repr

/-- One loaded JSON file: the parsed top-level object (key `chat_history`,
possibly absent) plus the `source_file` tag added by the loader. -/
structure Document where
  chat_history : Option (List ChatSession)
  source_file : Option String
deriving DecidableEq, Repr

/-- A row of `processed_rows` in `process_data`, before timestamp typing:
all twelve columns, with the string timestamps still raw. -/
structure FlatRecord where
  user_id : String
  project_id : String
  session_id : String
  session_datetime : String
  session_total_tokens : Int
  source_file : String
  input_prompt : String
  output_response : String
  timestamp : String
  input_tokens : Int
  output_tokens : Int
  total_tokens : Int
deriving DecidableEq, Repr

/-- A typed datetime value as produced by `pd.to_datetime`. -/
structure Timestamp where
  year : Nat
  month : Nat
  day : Nat
  hour : Nat
  minute : Nat
  second : Nat
deriving DecidableEq, Repr

/-- A cell of a datetime column: either a real timestamp or the missing
value `NaT` (which `pd.to_datetime` produces for the empty string). -/
inductive PDValue where
  | nat_
  | ts (t : Timestamp)
deriving DecidableEq, Repr

/-- Models `Series.dt.hour`: the hour of a timestamp; `NaT` yields a missing value
(`NaN`), which pandas `groupby` subsequently drops. -/
def PDValue.hourVal : PDValue → Option Nat
  | .nat_ => none
  | .ts t => some t.hour

/-- A row of `processed_df` after the two `pd.to_datetime` conversions. -/
structure TypedRow where
  user_id : String
  project_id : String
  session_id : String
  session_datetime : PDValue
  session_total_tokens : Int
  source_file : String
  input_prompt : String
  output_response : String
  timestamp : PDValue
  input_tokens : Int
  output_tokens : Int
  total_tokens : Int
deriving DecidableEq, Repr

/-- Value of a two-digit decimal field, if both characters are digits. -/
def twoDigits (a b : Char) : Option Nat :=
  if a.isDigit && b.isDigit then some (10 * (a.toNat - 48) + (b.toNat - 48)) else none

/-- Value of a four-digit decimal field, if all characters are digits. -/
def fourDigits (a b c d : Char) : Option Nat :=
  if a.isDigit && b.isDigit && c.isDigit && d.isDigit then
    some (1000 * (a.toNat - 48) + 100 * (b.toNat - 48) + 10 * (c.toNat - 48) + (d.toNat - 48))
  else none

/-- Build a `Timestamp` from parsed fields, checking the calendar ranges
that `pd.to_datetime` enforces. -/
def mkTimestamp (y mo d h mi s : Nat) : Option Timestamp :=
  if 1 ≤ mo && mo ≤ 12 && 1 ≤ d && d ≤ 31 && h ≤ 23 && mi ≤ 59 && s ≤ 59 then
    some { year := y, month := mo, day := d, hour := h, minute := mi, second := s }
  else none

/-- Models `pd.to_datetime` on a single cell: the empty string becomes `NaT`;
an ISO string `YYYY-MM-DD`, optionally followed by `THH:MM:SS` or
` HH:MM:SS`, parses to a timestamp; anything else raises. -/
def parseDatetime (s : String) : Except String PDValue :=
  if s = "" then .ok .nat_
  else
    match s.toList with
    | [y1, y2, y3, y4, '-', m1, m2, '-', d1, d2] =>
      match fourDigits y1 y2 y3 y4, twoDigits m1 m2, twoDigits d1 d2 with
      | some y, some mo, some d =>
        match mkTimestamp y mo d 0 0 0 with
        | some t => .ok (.ts t)
        | none => .error ("Unknown datetime string format: " ++ s)
      | _, _, _ => .error ("Unknown datetime string format: " ++ s)
    | [y1, y2, y3, y4, '-', m1, m2, '-', d1, d2, sep, h1, h2, ':', n1, n2, ':', s1, s2] =>
      if sep = 'T' || sep = ' ' then
        match fourDigits y1 y2 y3 y4, twoDigits m1 m2, twoDigits d1 d2,
              twoDigits h1 h2, twoDigits n1 n2, twoDigits s1 s2 with
        | some y, some mo, some d, some h, some mi, some sec =>
          match mkTimestamp y mo d h mi sec with
          | some t => .ok (.ts t)
          | none => .error ("Unknown datetime string format: " ++ s)
        | _, _, _, _, _, _ => .error ("Unknown datetime string format: " ++ s)
      else .error ("Unknown datetime string format: " ++ s)
    | _ => .error ("Unknown datetime string format: " ++ s)

/-- The row dictionary built for one chat turn inside `process_data`:
each `x.get(k, default)` of the source becomes `Option.getD`. -/
def mkRow (session_data : Document) (chat_session : ChatSession) (chat : ChatTurn) :
    FlatRecord :=
  { user_id := chat_session.user_id.getD "Unknown"
    project_id := chat_session.project_id.getD "Unknown"
    session_id := chat_session.session_id.getD "Unknown"
    session_datetime := chat_session.datetime.getD ""
    session_total_tokens := chat_session.session_total_tokens.getD 0
    source_file := session_data.source_file.getD "Unknown"
    input_prompt := chat.input_prompt.getD ""
    output_response := chat.output_response.getD ""
    timestamp := chat.timestamp.getD ""
    input_tokens := chat.input_tokens.getD 0
    output_tokens := chat.output_tokens.getD 0
    total_tokens := chat.total_tokens.getD 0 }

/-- The inner loop of `process_data`: one row per element of
`chat_session.get('chat_data', [])`. -/
def flattenSession (session_data : Document) (chat_session : ChatSession) :
    List FlatRecord :=
  (chat_session.chat_data.getD []).map (mkRow session_data chat_session)

/-- The middle loop: one block of rows per element of
`session_data.get('chat_history', [])`. -/
def flattenDoc (session_data : Document) : List FlatRecord :=
  ((session_data.chat_history.getD []).map (flattenSession session_data)).flatten

/-- The full `processed_rows` list accumulated over `self.all_data`. -/
def flatten (all_data : List Document) : List FlatRecord :=
  (all_data.map flattenDoc).flatten

/-- A whole-column `pd.to_datetime`: converts every cell, failing the whole
conversion on the first cell that fails. -/
def mapExcept (f : α → Except String β) : List α → Except String (List β)
  | [] => .ok []
  | a :: as =>
    match f a with
    | .error e => .error e
    | .ok b =>
      match mapExcept f as with
      | .error e => .error e
      | .ok bs => .ok (b :: bs)

/-- Reassemble rows with their two typed datetime columns. -/
def typeRows : List FlatRecord → List PDValue → List PDValue → List TypedRow
  | r :: rs, t :: ts, s :: ss =>
    { user_id := r.user_id
      project_id := r.project_id
      session_id := r.session_id
      session_datetime := s
      session_total_tokens := r.session_total_tokens
      source_file := r.source_file
      input_prompt := r.input_prompt
      output_response := r.output_response
      timestamp := t
      input_tokens := r.input_tokens
      output_tokens := r.output_tokens
      total_tokens := r.total_tokens } :: typeRows rs ts ss
  | _, _, _ => []

/-- Embeds `process_data`: build the DataFrame from the flattened rows, then type
the `timestamp` column and then the `session_datetime` column.  A
DataFrame built from an empty row list has no columns at all, so reading
its `timestamp` column raises `KeyError`. -/
def process_data (all_data : List Document) : Except String (List TypedRow) :=
  let processed_rows := flatten all_data
  if processed_rows = [] then .error "KeyError: timestamp"
  else
    match mapExcept (fun r => parseDatetime r.timestamp) processed_rows with
    | .error e => .error e
    | .ok ts =>
      match mapExcept (fun r => parseDatetime r.session_datetime) processed_rows with
      | .error e => .error e
      | .ok ss => .ok (typeRows processed_rows ts ss)

/-- One candidate file of the input directory: its name and the outcome of
`json.load` on its contents. -/
structure RawFile where
  name : String
  parsed : Except String Document

/-- Whether `json.load` succeeds on the file. -/
def parseOk (f : RawFile) : Bool :=
  match f.parsed with
  | .ok _ => true
  | .error _ => false

/-- The loading loop of `load_json_files`: a file that parses is tagged
with its filename and appended to `all_data`; a failing file is logged by
filename and message and the loop continues. -/
def loadLoop : List RawFile → List Document × List (String × String)
  | [] => ([], [])
  | f :: fs =>
    let rest := loadLoop fs
    match f.parsed with
    | .ok d => ({ d with source_file := some f.name } :: rest.1, rest.2)
    | .error e => (rest.1, (f.name, e) :: rest.2)

/-- Embeds `load_json_files`: restrict the directory listing to names ending in
`.json`, then attempt each file once.  Returns the loaded documents and
the logged failures. -/
def load_json_files (files : List RawFile) : List Document × List (String × String) :=
  loadLoop (files.filter (fun f => f.name.endsWith ".json"))

/-- A word character of the regex `\w`: letter, digit or underscore. -/
def isWordChar (c : Char) : Bool := c.isAlphanum || c = '_'

/-- Scanner for `re.findall` with pattern `\b\w+\b`: collects the maximal
runs of word characters (`acc` is the current run, reversed). -/
def tokensAux : List Char → List Char → List String
  | [], [] => []
  | [], acc => [String.mk acc.reverse]
  | c :: cs, acc =>
    if isWordChar c then tokensAux cs (c :: acc)
    else
      match acc with
      | [] => tokensAux cs []
      | _ => String.mk acc.reverse :: tokensAux cs []

/-- Models `re.findall` with pattern `\b\w+\b` on `text.lower()`: lowercase character-wise, then
collect the word-character runs. -/
def tokenize (text : String) : List String :=
  tokensAux (text.toList.map Char.toLower) []

/-- Increment the count of `w` in an insertion-ordered counter. -/
def bump (w : String) : List (String × Nat) → List (String × Nat)
  | [] => [(w, 1)]
  | (k, n) :: rest => if k = w then (k, n + 1) :: rest else (k, n) :: bump w rest

/-- Models `collections.Counter(words)`: counts keyed in first-occurrence order. -/
def counterOf (ws : List String) : List (String × Nat) :=
  ws.foldl (fun acc w => bump w acc) []

/-- Stable insertion, descending by count: a later-inserted entry goes
after every earlier entry with the same or larger count. -/
def insertDesc (p : String × Nat) : List (String × Nat) → List (String × Nat)
  | [] => [p]
  | q :: qs => if q.2 > p.2 then q :: insertDesc p qs else p :: q :: qs

/-- Stable sort by count descending (Python's `sorted` is stable, so ties
keep Counter insertion order). -/
def sortDesc : List (String × Nat) → List (String × Nat)
  | [] => []
  | p :: ps => insertDesc p (sortDesc ps)

/-- Models `Counter.most_common(k)`. -/
def most_common (k : Nat) (c : List (String × Nat)) : List (String × Nat) :=
  (sortDesc c).take k

/-- The fixed stop-word set of `create_visualizations`, step 3. -/
def stop_words : List String :=
  ["the", "and", "to", "of", "a", "in", "is", "that", "it", "on", "you", "for",
   "i", "with", "as", "at", "this", "but", "be", "are"]

/-- The loop `for word in stop_words: word_freq.pop(word, None)`: removes
the stop-word keys, preserving the order of the remaining entries. -/
def removeStopWords (c : List (String × Nat)) : List (String × Nat) :=
  c.filter (fun p => !stop_words.contains p.1)

/-- Models the join of the prompt column with single spaces, as in the
source expression joining `input_prompt.astype(str)`. -/
def promptText (rows : List TypedRow) : String :=
  String.intercalate " " (rows.map (fun r => r.input_prompt))

/-- The word-frequency counter over some rows' prompt text, before any
stop-word removal (`Counter(re.findall(..., all_text.lower()))`). -/
def chartWordFreq (rows : List TypedRow) : List (String × Nat) :=
  counterOf (tokenize (promptText rows))

/-- Embeds `file_data`: the table restricted to one source file. -/
def fileData (df : List TypedRow) (source_file : String) : List TypedRow :=
  df.filter (fun r => r.source_file == source_file)

/-- The chart's top-20 common-words list (`create_visualizations`, step 3):
tokenize the file's prompt text, count, drop the stop words, take the 20
most common. -/
def chart_common_words (df : List TypedRow) (source_file : String) :
    List (String × Nat) :=
  most_common 20 (removeStopWords (chartWordFreq (fileData df source_file)))

/-- The report's top-5 list (`generate_summary_report`): same tokenization
over the whole table's prompt text, then `Counter(words).most_common(5)` —
with no stop-word removal. -/
def report_common_words (df : List TypedRow) : List (String × Nat) :=
  most_common 5 (chartWordFreq df)

/-- Lexicographic code-point comparison of strings (the order `sorted` and
pandas use on `str` keys). -/
def strLt : List Char → List Char → Bool
  | [], [] => false
  | [], _ :: _ => true
  | _ :: _, [] => false
  | a :: as, b :: bs =>
    if a.toNat < b.toNat then true
    else if b.toNat < a.toNat then false
    else strLt as bs

/-- Ordered insertion of a string into an ascending list. -/
def insertStr (s : String) : List String → List String
  | [] => [s]
  | t :: ts => if strLt s.toList t.toList then s :: t :: ts else t :: insertStr s ts

/-- Ascending insertion sort on strings. -/
def sortStr : List String → List String
  | [] => []
  | s :: ss => insertStr s (sortStr ss)

/-- The group keys produced by `groupby`: the distinct values, sorted
ascending. -/
def groupKeys (l : List String) : List String := sortStr l.dedup

/-- Chart 2 (`file_data.groupby('session_id').agg(input sum, output sum)`):
for each session id of the file's rows, the summed input and output
tokens — the two bar heights. -/
def session_tokens (df : List TypedRow) (source_file : String) :
    List (String × Int × Int) :=
  let file_data := fileData df source_file
  (groupKeys (file_data.map (fun r => r.session_id))).map (fun sid =>
    let g := file_data.filter (fun r => r.session_id == sid)
    (sid, (g.map (fun r => r.input_tokens)).sum, (g.map (fun r => r.output_tokens)).sum))

/-- The hour column `processed_df['timestamp'].dt.hour`, with `NaT` rows
dropped (pandas `groupby` discards missing keys). -/
def hoursOf (df : List TypedRow) : List Nat :=
  df.filterMap (fun r => r.timestamp.hourVal)

/-- Models `groupby(hour).size()`: counts indexed by the distinct hours present,
in ascending index order (hours lie in 0–23). -/
def hourCounts (hours : List Nat) : List (Nat × Nat) :=
  ((List.range 24).filter (fun h => hours.contains h)).map (fun h => (h, hours.count h))

/-- The scan of `Series.idxmax`: keep the first index whose value is
maximal — a later value replaces the current best only when strictly
larger. -/
def idxmaxAux (best : Nat × Nat) : List (Nat × Nat) → Nat × Nat
  | [] => best
  | p :: rest => idxmaxAux (if best.2 < p.2 then p else best) rest

/-- Embeds the busiest-hour expression `groupby(dt.hour).size().idxmax()`
of the report; `none` when the series
is empty (pandas raises there). -/
def busiest_hour (df : List TypedRow) : Option Nat :=
  match hourCounts (hoursOf df) with
  | [] => none
  | p :: rest => some (idxmaxAux p rest).1

/-- Embeds the distinct-session count `nunique` of the report. -/
def total_sessions (df : List TypedRow) : Nat :=
  (df.map (fun r => r.session_id)).dedup.length

/-- Embeds the interaction count `len(processed_df)` of the report. -/
def total_interactions (df : List TypedRow) : Nat := df.length

/-- Embeds the token sum of the report over column `total_tokens`. -/
def total_tokens_used (df : List TypedRow) : Int :=
  (df.map (fun r => r.total_tokens)).sum

/-- Embeds the token mean of the report over column `total_tokens`, as an
exact rational. -/
def avg_tokens (df : List TypedRow) : ℚ :=
  (total_tokens_used df : ℚ) / (df.length : ℚ)

/-! ### Concrete fixtures used by the scenario theorems -/

/-- A chat turn with every field present. -/
def mkTurn (prompt resp tstamp : String) (i o tot : Int) : ChatTurn :=
  { input_prompt := some prompt, output_response := some resp, timestamp := some tstamp,
    input_tokens := some i, output_tokens := some o, total_tokens := some tot }

/-- The spec's two-turn scenario: one session with turns at 09:00 and 09:30
and token triples (10, 20, 30) and (5, 5, 10). -/
def scenarioDoc : Document :=
  { chat_history := some [
      { user_id := some "u1", project_id := some "p1", session_id := some "s1",
        datetime := some "2024-01-01T09:00:00", session_total_tokens := some 40,
        chat_data := some [
          mkTurn "hello world" "resp one" "2024-01-01T09:00:00" 10 20 30,
          mkTurn "hello again" "resp two" "2024-01-01T09:30:00" 5 5 10] }],
    source_file := some "chat.json" }

/-- A document with one turn whose timestamp string is malformed. -/
def badTsDoc : Document :=
  { chat_history := some [
      { user_id := some "u1", project_id := some "p1", session_id := some "s1",
        datetime := some "2024-01-01T09:00:00", session_total_tokens := some 30,
        chat_data := some [mkTurn "hi" "resp" "not-a-date" 10 20 30] }],
    source_file := some "chat.json" }

/-- A document whose `chat_history` key is absent. -/
def emptyDoc : Document :=
  { chat_history := none, source_file := some "empty.json" }

/-- A session with every key absent. -/
def noneSession : ChatSession :=
  { user_id := none, project_id := none, session_id := none, datetime := none,
    session_total_tokens := none, chat_data := none }

/-- A turn with every key absent. -/
def noneTurn : ChatTurn :=
  { input_prompt := none, output_response := none, timestamp := none,
    input_tokens := none, output_tokens := none, total_tokens := none }

/-- A document with every key absent. -/
def noneDoc : Document := { chat_history := none, source_file := none }

/-- A typed row of session `sid` whose timestamp sits at hour `h`, with
prompt text `prompt` and token counts `i`/`o`. -/
def rowAt (sid : String) (h : Nat) (prompt : String) (i o : Int) : TypedRow :=
  { user_id := "u1", project_id := "p1", session_id := sid,
    session_datetime := .ts ⟨2024, 1, 1, 9, 0, 0⟩, session_total_tokens := 40,
    source_file := "chat.json", input_prompt := prompt, output_response := "resp",
    timestamp := .ts ⟨2024, 1, 1, h, 0, 0⟩, input_tokens := i, output_tokens := o,
    total_tokens := i + o }

/-- Five rows at hours [3, 3, 3, 7, 7]: the spec's busiest-hour scenario. -/
def hoursTable : List TypedRow :=
  [rowAt "s1" 3 "" 1 1, rowAt "s1" 3 "" 1 1, rowAt "s1" 3 "" 1 1,
   rowAt "s2" 7 "" 1 1, rowAt "s2" 7 "" 1 1]

/-- A one-row table whose prompt text consists mostly of a stop word. -/
def stopWordTable : List TypedRow :=
  [rowAt "s1" 9 "the the cat" 1 1]

/-- The table `process_data` builds from the two-turn scenario document. -/
def scenarioTable : List TypedRow :=
  [{ user_id := "u1", project_id := "p1", session_id := "s1",
     session_datetime := .ts ⟨2024, 1, 1, 9, 0, 0⟩, session_total_tokens := 40,
     source_file := "chat.json", input_prompt := "hello world",
     output_response := "resp one", timestamp := .ts ⟨2024, 1, 1, 9, 0, 0⟩,
     input_tokens := 10, output_tokens := 20, total_tokens := 30 },
   { user_id := "u1", project_id := "p1", session_id := "s1",
     session_datetime := .ts ⟨2024, 1, 1, 9, 0, 0⟩, session_total_tokens := 40,
     source_file := "chat.json", input_prompt := "hello again",
     output_response := "resp two", timestamp := .ts ⟨2024, 1, 1, 9, 30, 0⟩,
     input_tokens := 5, output_tokens := 5, total_tokens := 10 }]

/-- The flat record `process_data` builds for the malformed-timestamp turn
of `badTsDoc`. -/
def badRow : FlatRecord :=
  { user_id := "u1", project_id := "p1", session_id := "s1",
    session_datetime := "2024-01-01T09:00:00", session_total_tokens := 30,
    source_file := "chat.json", input_prompt := "hi", output_response := "resp",
    timestamp := "not-a-date", input_tokens := 10, output_tokens := 20,
    total_tokens := 30 }

/-- Count associated to a key in an insertion-ordered counter (first
matching entry); `0` if the key is absent.  Proof-side helper only. -/
def cnt (c : List (String × Nat)) (k : String) : Nat :=
  match c with
  | [] => 0
  | (k2, n) :: rest => if k2 = k then n else cnt rest k

/-- The keys of a counter, in order.  Proof-side helper only. -/
def keysOf (c : List (String × Nat)) : List String := c.map (fun p => p.1)

/-! ### Helper lemmas -/

theorem mapExcept_ok_length (f : α → Except String β) :
    ∀ (l : List α) (bs : List β), mapExcept f l = .ok bs → bs.length = l.length := by
  intro l
  induction l with
  | nil =>
    intro bs h
    simp only [mapExcept] at h
    injection h with h
    simp [← h]
  | cons a as ih =>
    intro bs h
    simp only [mapExcept] at h
    cases hfa : f a with
    | error e => rw [hfa] at h; cases h
    | ok b =>
      rw [hfa] at h
      cases hrec : mapExcept f as with
      | error e => rw [hrec] at h; cases h
      | ok bs2 =>
        rw [hrec] at h
        injection h with h
        rw [← h]
        simp [ih bs2 hrec]

theorem mapExcept_error_of_mem (f : α → Except String β) :
    ∀ {l : List α} {a : α} {e : String}, a ∈ l → f a = .error e →
      ∃ e2, mapExcept f l = .error e2 := by
  intro l
  induction l with
  | nil => intro a e h; cases h
  | cons x xs ih =>
    intro a e hmem hfa
    rcases hfx : f x with e2 | b
    · exact ⟨e2, by simp only [mapExcept, hfx]⟩
    · rcases List.mem_cons.mp hmem with rfl | h
      · rw [hfa] at hfx; cases hfx
      · rcases ih h hfa with ⟨e2, hrec⟩
        exact ⟨e2, by simp only [mapExcept, hfx, hrec]⟩

theorem typeRows_length :
    ∀ (rs : List FlatRecord) (ts ss : List PDValue),
      ts.length = rs.length → ss.length = rs.length →
      (typeRows rs ts ss).length = rs.length := by
  intro rs
  induction rs with
  | nil => intro ts ss _ _; cases ts <;> cases ss <;> simp [typeRows]
  | cons r rs ih =>
    intro ts ss h1 h2
    cases ts with
    | nil => simp at h1
    | cons t ts2 =>
      cases ss with
      | nil => simp at h2
      | cons s ss2 =>
        simp only [typeRows, List.length_cons]
        rw [ih ts2 ss2 (by simpa using h1) (by simpa using h2)]

theorem flattenDoc_length (d : Document) :
    (flattenDoc d).length =
      ((d.chat_history.getD []).map (fun s => (s.chat_data.getD []).length)).sum := by
  have hfun : (List.length ∘ flattenSession d) =
      fun s : ChatSession => (s.chat_data.getD []).length :=
    funext (fun s => by simp [flattenSession])
  rw [flattenDoc, List.length_flatten, List.map_map, hfun]

theorem flatten_length (all_data : List Document) :
    (flatten all_data).length =
      (all_data.map (fun d =>
        ((d.chat_history.getD []).map (fun s => (s.chat_data.getD []).length)).sum)).sum := by
  have hfun : (List.length ∘ flattenDoc) =
      fun d : Document =>
        ((d.chat_history.getD []).map (fun s => (s.chat_data.getD []).length)).sum :=
    funext flattenDoc_length
  rw [flatten, List.length_flatten, List.map_map, hfun]

/-! ### C2, C3, C4: `process_data` -/

/-- C3: for every list of documents that `process_data` accepts, the number
of rows of the resulting table equals the sum, over all sessions of all
documents, of the session's turn count. -/
theorem process_data_row_count (all_data : List Document) (df : List TypedRow)
    (h : process_data all_data = .ok df) :
    df.length =
      (all_data.map (fun d =>
        ((d.chat_history.getD []).map (fun s => (s.chat_data.getD []).length)).sum)).sum := by
  unfold process_data at h
  by_cases hrows : flatten all_data = []
  · rw [if_pos hrows] at h; cases h
  · rw [if_neg hrows] at h
    cases hts : mapExcept (fun r => parseDatetime r.timestamp) (flatten all_data) with
    | error e => rw [hts] at h; cases h
    | ok ts =>
      rw [hts] at h
      cases hss : mapExcept (fun r => parseDatetime r.session_datetime) (flatten all_data) with
      | error e => rw [hss] at h; cases h
      | ok ss =>
        rw [hss] at h
        injection h with h
        rw [← h,
          typeRows_length _ _ _ (mapExcept_ok_length _ _ _ hts) (mapExcept_ok_length _ _ _ hss)]
        exact flatten_length all_data

/-- Witness for C3: the two-turn scenario document yields a two-row table,
and 2 is the predicted sum of turn counts. -/
theorem process_data_row_count_witness :
    process_data [scenarioDoc] = .ok scenarioTable ∧
      scenarioTable.length =
        (([scenarioDoc].map (fun d =>
          ((d.chat_history.getD []).map (fun s => (s.chat_data.getD []).length)).sum)).sum) :=
  ⟨rfl, process_data_row_count [scenarioDoc] scenarioTable rfl⟩

/-- C4: when the documents flatten to no rows at all, `process_data` raises
(the `timestamp` column is missing from the empty DataFrame) instead of
returning an empty table; a table is returned only when at least one flat
record exists. -/
theorem process_data_no_rows_raises (all_data : List Document) :
    (flatten all_data = [] → process_data all_data = .error "KeyError: timestamp") ∧
    (∀ df, process_data all_data = .ok df → flatten all_data ≠ []) := by
  constructor
  · intro h
    unfold process_data
    rw [if_pos h]
  · intro df h hflat
    unfold process_data at h
    rw [if_pos hflat] at h
    cases h

/-- Witness for C4: a document without `chat_history` flattens to no rows,
and `process_data` on it raises the `KeyError`. -/
theorem process_data_no_rows_raises_witness :
    process_data [emptyDoc] = .error "KeyError: timestamp" :=
  (process_data_no_rows_raises [emptyDoc]).1 rfl

/-- C2: a row whose `timestamp` (or `session_datetime`) string fails to
parse makes the whole build fail: `process_data` returns an error whenever
any flattened row's datetime string is malformed. -/
theorem process_data_bad_timestamp_raises (all_data : List Document) (r : FlatRecord)
    (e : String) (hr : r ∈ flatten all_data)
    (hbad : parseDatetime r.timestamp = .error e ∨
      parseDatetime r.session_datetime = .error e) :
    ∃ e2, process_data all_data = .error e2 := by
  have hne : flatten all_data ≠ [] := by
    intro hh
    rw [hh] at hr
    cases hr
  unfold process_data
  rw [if_neg hne]
  rcases hbad with hbad | hbad
  · rcases mapExcept_error_of_mem (fun r => parseDatetime r.timestamp) hr hbad with ⟨e2, hm⟩
    rw [hm]
    exact ⟨e2, rfl⟩
  · cases hts : mapExcept (fun r => parseDatetime r.timestamp) (flatten all_data) with
    | error e3 => exact ⟨e3, rfl⟩
    | ok ts =>
      rcases mapExcept_error_of_mem (fun r => parseDatetime r.session_datetime) hr hbad with
        ⟨e2, hm⟩
      rw [hm]
      exact ⟨e2, rfl⟩

/-- Witness for C2: one malformed turn timestamp makes `process_data` fail
on the whole document list. -/
theorem process_data_bad_timestamp_raises_witness :
    ∃ e2, process_data [badTsDoc] = .error e2 :=
  process_data_bad_timestamp_raises [badTsDoc] badRow
    "Unknown datetime string format: not-a-date" (by decide) (Or.inl rfl)

/-! ### C7, C10: defaults for missing fields -/

/-- C7: each missing nested field defaults to its sentinel in the flat
record — `Unknown` for the three id fields, the empty string for the four
string fields, `0` for the four token counts — and flattening is total, so
absence never raises. -/
theorem missing_fields_default (d : Document) (s : ChatSession) (c : ChatTurn) :
    (s.user_id = none → (mkRow d s c).user_id = "Unknown") ∧
    (s.project_id = none → (mkRow d s c).project_id = "Unknown") ∧
    (s.session_id = none → (mkRow d s c).session_id = "Unknown") ∧
    (s.datetime = none → (mkRow d s c).session_datetime = "") ∧
    (s.session_total_tokens = none → (mkRow d s c).session_total_tokens = 0) ∧
    (c.input_prompt = none → (mkRow d s c).input_prompt = "") ∧
    (c.output_response = none → (mkRow d s c).output_response = "") ∧
    (c.timestamp = none → (mkRow d s c).timestamp = "") ∧
    (c.input_tokens = none → (mkRow d s c).input_tokens = 0) ∧
    (c.output_tokens = none → (mkRow d s c).output_tokens = 0) ∧
    (c.total_tokens = none → (mkRow d s c).total_tokens = 0) := by
  refine ⟨?_, ?_, ?_, ?_, ?_, ?_, ?_, ?_, ?_, ?_, ?_⟩ <;>
    (intro h; simp [mkRow, h])

/-- Witness for C7: a session and turn with every key absent produce the
full sentinel row. -/
theorem missing_fields_default_witness :
    (mkRow noneDoc noneSession noneTurn).user_id = "Unknown" ∧
    (mkRow noneDoc noneSession noneTurn).project_id = "Unknown" ∧
    (mkRow noneDoc noneSession noneTurn).session_id = "Unknown" ∧
    (mkRow noneDoc noneSession noneTurn).session_datetime = "" ∧
    (mkRow noneDoc noneSession noneTurn).session_total_tokens = 0 ∧
    (mkRow noneDoc noneSession noneTurn).input_prompt = "" ∧
    (mkRow noneDoc noneSession noneTurn).output_response = "" ∧
    (mkRow noneDoc noneSession noneTurn).timestamp = "" ∧
    (mkRow noneDoc noneSession noneTurn).input_tokens = 0 ∧
    (mkRow noneDoc noneSession noneTurn).output_tokens = 0 ∧
    (mkRow noneDoc noneSession noneTurn).total_tokens = 0 := by
  have t := missing_fields_default noneDoc noneSession noneTurn
  exact ⟨t.1 rfl, t.2.1 rfl, t.2.2.1 rfl, t.2.2.2.1 rfl, t.2.2.2.2.1 rfl,
    t.2.2.2.2.2.1 rfl, t.2.2.2.2.2.2.1 rfl, t.2.2.2.2.2.2.2.1 rfl,
    t.2.2.2.2.2.2.2.2.1 rfl, t.2.2.2.2.2.2.2.2.2.1 rfl, t.2.2.2.2.2.2.2.2.2.2 rfl⟩

/-- C10: a document without the `chat_history` key flattens to zero rows,
and a session without the `chat_data` key contributes zero rows; neither
raises. -/
theorem absent_keys_yield_no_rows :
    (∀ d : Document, d.chat_history = none → flattenDoc d = []) ∧
    (∀ (d : Document) (s : ChatSession), s.chat_data = none → flattenSession d s = []) := by
  constructor
  · intro d h
    simp [flattenDoc, h]
  · intro d s h
    simp [flattenSession, h]

/-- Witness for C10: the concrete `chat_history`-less and `chat_data`-less
fixtures flatten to nothing. -/
theorem absent_keys_yield_no_rows_witness :
    flattenDoc emptyDoc = [] ∧ flattenSession emptyDoc noneSession = [] :=
  ⟨absent_keys_yield_no_rows.1 emptyDoc rfl,
   absent_keys_yield_no_rows.2 emptyDoc noneSession rfl⟩

/-! ### C8: the file loader -/

theorem loadLoop_counts (l : List RawFile) :
    (loadLoop l).1.length = (l.filter parseOk).length ∧
    (loadLoop l).2.length = (l.filter (fun f => !parseOk f)).length ∧
    (loadLoop l).1.length + (loadLoop l).2.length = l.length := by
  induction l with
  | nil => simp [loadLoop]
  | cons f fs ih =>
    have h1 := ih.1
    have h2 := ih.2.1
    have h3 := ih.2.2
    rcases hp : f.parsed with e | d
    · have hpk : parseOk f = false := by simp [parseOk, hp]
      have hstep : loadLoop (f :: fs) = ((loadLoop fs).1, (f.name, e) :: (loadLoop fs).2) := by
        simp [loadLoop, hp]
      rw [hstep]
      refine ⟨?_, ?_, ?_⟩
      · simpa [List.filter_cons, hpk] using h1
      · simp [List.filter_cons, hpk, h2]
      · simp only [List.length_cons]
        omega
    · have hpk : parseOk f = true := by simp [parseOk, hp]
      have hstep : loadLoop (f :: fs) =
          ({ d with source_file := some f.name } :: (loadLoop fs).1, (loadLoop fs).2) := by
        simp [loadLoop, hp]
      rw [hstep]
      refine ⟨?_, ?_, ?_⟩
      · simp [List.filter_cons, hpk, h1]
      · simpa [List.filter_cons, hpk] using h2
      · simp only [List.length_cons]
        omega

/-- C8: of the `.json` files of the directory, exactly those that parse
are loaded and exactly those that fail are logged; the two counts add up
to the number of `.json` files, so no file is double-counted, dropped, or
retried, and one failure never aborts the rest. -/
theorem load_json_files_counts (files : List RawFile) :
    (load_json_files files).1.length =
      ((files.filter (fun f => f.name.endsWith ".json")).filter parseOk).length ∧
    (load_json_files files).2.length =
      ((files.filter (fun f => f.name.endsWith ".json")).filter
        (fun f => !parseOk f)).length ∧
    (load_json_files files).1.length + (load_json_files files).2.length =
      (files.filter (fun f => f.name.endsWith ".json")).length := by
  unfold load_json_files
  exact loadLoop_counts _

/-! ### C6: token distribution bar heights -/

/-- C6: each entry of the token-distribution data for a source file carries
exactly the sum of `input_tokens` and the sum of `output_tokens` over the
table rows with that session id and that source file. -/
theorem session_tokens_sums (df : List TypedRow) (f sid : String) (i o : Int)
    (h : (sid, i, o) ∈ session_tokens df f) :
    i = ((df.filter (fun r => r.session_id == sid && r.source_file == f)).map
          (fun r => r.input_tokens)).sum ∧
    o = ((df.filter (fun r => r.session_id == sid && r.source_file == f)).map
          (fun r => r.output_tokens)).sum := by
  unfold session_tokens at h
  rcases List.mem_map.mp h with ⟨s2, _, heq⟩
  rw [Prod.mk.injEq, Prod.mk.injEq] at heq
  rcases heq with ⟨rfl, rfl, rfl⟩
  rw [fileData, List.filter_filter]
  exact ⟨rfl, rfl⟩

/-- Witness for C6: in the five-row fixture table, session `s1`'s bars are
the sums 3 and 3 of its three rows' tokens. -/
theorem session_tokens_sums_witness :
    (3 : Int) = ((hoursTable.filter
        (fun r => r.session_id == "s1" && r.source_file == "chat.json")).map
        (fun r => r.input_tokens)).sum ∧
    (3 : Int) = ((hoursTable.filter
        (fun r => r.session_id == "s1" && r.source_file == "chat.json")).map
        (fun r => r.output_tokens)).sum :=
  session_tokens_sums hoursTable "chat.json" "s1" 3 3 (by decide)

/-! ### C5: the busiest hour -/

theorem idxmaxAux_mem (l : List (Nat × Nat)) :
    ∀ best : Nat × Nat, idxmaxAux best l ∈ best :: l := by
  induction l with
  | nil => intro best; simp [idxmaxAux]
  | cons p rest ih =>
    intro best
    simp only [idxmaxAux]
    by_cases h : best.2 < p.2
    · rw [if_pos h]
      exact List.mem_cons_of_mem best (ih p)
    · rw [if_neg h]
      rcases List.mem_cons.mp (ih best) with heq | hmem
      · rw [heq]; exact List.mem_cons_self best _
      · exact List.mem_cons_of_mem best (List.mem_cons_of_mem p hmem)

theorem idxmaxAux_le (l : List (Nat × Nat)) :
    ∀ best : Nat × Nat, ∀ q ∈ best :: l, q.2 ≤ (idxmaxAux best l).2 := by
  induction l with
  | nil =>
    intro best q hq
    rcases List.mem_cons.mp hq with rfl | hq2
    · exact le_refl _
    · cases hq2
  | cons p rest ih =>
    intro best q hq
    simp only [idxmaxAux]
    by_cases h : best.2 < p.2
    · rw [if_pos h]
      rcases List.mem_cons.mp hq with rfl | hq2
      · exact le_trans (le_of_lt h) (ih p p (List.mem_cons_self p rest))
      · exact ih p q hq2
    · rw [if_neg h]
      rcases List.mem_cons.mp hq with rfl | hq2
      · exact ih q q (List.mem_cons_self q rest)
      · rcases List.mem_cons.mp hq2 with rfl | hq3
        · exact le_trans (not_lt.mp h) (ih best best (List.mem_cons_self best rest))
        · exact ih best q (List.mem_cons_of_mem best hq3)

theorem idxmaxAux_stay (l : List (Nat × Nat)) :
    ∀ best : Nat × Nat, (idxmaxAux best l).2 = best.2 → idxmaxAux best l = best := by
  induction l with
  | nil => intro best _; rfl
  | cons p rest ih =>
    intro best heq
    simp only [idxmaxAux] at heq ⊢
    by_cases h : best.2 < p.2
    · rw [if_pos h] at heq ⊢
      exfalso
      have hp := idxmaxAux_le rest p p (List.mem_cons_self p rest)
      omega
    · rw [if_neg h] at heq ⊢
      exact ih best heq

theorem idxmaxAux_first (l : List (Nat × Nat)) :
    ∀ best : Nat × Nat,
      List.Pairwise (fun a b : Nat × Nat => a.1 < b.1) (best :: l) →
      ∀ q ∈ best :: l, q.2 = (idxmaxAux best l).2 → (idxmaxAux best l).1 ≤ q.1 := by
  induction l with
  | nil =>
    intro best _ q hq _
    rcases List.mem_cons.mp hq with rfl | hq2
    · exact le_refl _
    · cases hq2
  | cons p rest ih =>
    intro best hpw q hq heq
    have hbp : best.1 < p.1 := (List.pairwise_cons.mp hpw).1 p (List.mem_cons_self p rest)
    simp only [idxmaxAux] at heq ⊢
    by_cases h : best.2 < p.2
    · rw [if_pos h] at heq ⊢
      have hpw2 : List.Pairwise (fun a b : Nat × Nat => a.1 < b.1) (p :: rest) :=
        (List.pairwise_cons.mp hpw).2
      rcases List.mem_cons.mp hq with rfl | hq2
      · exfalso
        have hple := idxmaxAux_le rest p p (List.mem_cons_self p rest)
        omega
      · exact ih p hpw2 q hq2 heq
    · rw [if_neg h] at heq ⊢
      have hpwbr : List.Pairwise (fun a b : Nat × Nat => a.1 < b.1) (best :: rest) := by
        have hsub : (best :: rest).Sublist (best :: p :: rest) :=
          List.Sublist.cons₂ best (List.sublist_cons_self p rest)
        exact hpw.sublist hsub
      rcases List.mem_cons.mp hq with rfl | hq2
      · exact ih q hpwbr q (List.mem_cons_self q rest) heq
      · rcases List.mem_cons.mp hq2 with rfl | hq3
        · have hle : best.2 ≤ (idxmaxAux best rest).2 :=
            idxmaxAux_le rest best best (List.mem_cons_self best rest)
          have hple : q.2 ≤ best.2 := not_lt.mp h
          have hbeq : (idxmaxAux best rest).2 = best.2 := by omega
          rw [idxmaxAux_stay rest best hbeq]
          exact le_of_lt hbp
        · exact ih best hpwbr q (List.mem_cons_of_mem best hq3) heq

theorem hourCounts_pairwise (hours : List Nat) :
    List.Pairwise (fun a b : Nat × Nat => a.1 < b.1) (hourCounts hours) := by
  unfold hourCounts
  exact List.Pairwise.map _ (fun a b hab => hab)
    ((List.pairwise_lt_range 24).filter _)

theorem mem_hourCounts (hours : List Nat) (p : Nat × Nat) :
    p ∈ hourCounts hours ↔ p.1 < 24 ∧ p.1 ∈ hours ∧ p.2 = hours.count p.1 := by
  unfold hourCounts
  constructor
  · intro hp
    rcases List.mem_map.mp hp with ⟨h, hmem, heq⟩
    rcases List.mem_filter.mp hmem with ⟨hrange, hcontains⟩
    rw [← heq]
    exact ⟨List.mem_range.mp hrange, by simpa using hcontains, rfl⟩
  · rintro ⟨h24, hmem, heq⟩
    refine List.mem_map.mpr ⟨p.1, List.mem_filter.mpr ⟨List.mem_range.mpr h24, by simpa⟩, ?_⟩
    rw [← heq]

/-- C5: whenever the table has at least one non-missing timestamp (all
hours lying in 0–23 as `dt.hour` guarantees), the reported busiest hour is
an hour-of-day with the maximal row count, and among tied hours it is the
smallest; in particular a table whose rows sit at hours [3, 3, 3, 7, 7]
reports 3. -/
theorem busiest_hour_is_first_max :
    (∀ df : List TypedRow, hoursOf df ≠ [] → (∀ h ∈ hoursOf df, h < 24) →
      ∃ b, busiest_hour df = some b ∧ b ∈ hoursOf df ∧
        (∀ h, (hoursOf df).count h ≤ (hoursOf df).count b) ∧
        (∀ h, (hoursOf df).count h = (hoursOf df).count b → b ≤ h)) ∧
    busiest_hour hoursTable = some 3 := by
  constructor
  · intro df hne hlt
    rcases List.exists_mem_of_ne_nil _ hne with ⟨h0, hh0⟩
    have hk0 : (h0, (hoursOf df).count h0) ∈ hourCounts (hoursOf df) :=
      (mem_hourCounts _ _).mpr ⟨hlt h0 hh0, hh0, rfl⟩
    have hcne : hourCounts (hoursOf df) ≠ [] := by
      intro hnil
      rw [hnil] at hk0
      cases hk0
    rcases hc : hourCounts (hoursOf df) with _ | ⟨p, rest⟩
    · exact absurd hc hcne
    have hbdef : busiest_hour df = some (idxmaxAux p rest).1 := by
      unfold busiest_hour
      rw [hc]
    have hbmem : idxmaxAux p rest ∈ hourCounts (hoursOf df) := by
      rw [hc]
      exact idxmaxAux_mem rest p
    rcases (mem_hourCounts _ _).mp hbmem with ⟨hb24, hbhours, hbcount⟩
    refine ⟨(idxmaxAux p rest).1, hbdef, hbhours, ?_, ?_⟩
    · intro h
      by_cases hmem : h ∈ hoursOf df
      · have hk : (h, (hoursOf df).count h) ∈ hourCounts (hoursOf df) :=
          (mem_hourCounts _ _).mpr ⟨hlt h hmem, hmem, rfl⟩
        rw [hc] at hk
        have := idxmaxAux_le rest p (h, (hoursOf df).count h) hk
        omega
      · rw [List.count_eq_zero.mpr hmem]
        exact Nat.zero_le _
    · intro h hcnt
      by_cases hmem : h ∈ hoursOf df
      · have hk : (h, (hoursOf df).count h) ∈ hourCounts (hoursOf df) :=
          (mem_hourCounts _ _).mpr ⟨hlt h hmem, hmem, rfl⟩
        rw [hc] at hk
        have hpw : List.Pairwise (fun a b : Nat × Nat => a.1 < b.1) (p :: rest) := by
          rw [← hc]
          exact hourCounts_pairwise (hoursOf df)
        exact idxmaxAux_first rest p hpw (h, (hoursOf df).count h) hk (by omega)
      · exfalso
        have hzero : (hoursOf df).count h = 0 := List.count_eq_zero.mpr hmem
        have hpos : 0 < (hoursOf df).count (idxmaxAux p rest).1 :=
          List.count_pos_iff.mpr hbhours
        omega
  · decide

/-- Witness for C5: the five-row fixture table at hours [3, 3, 3, 7, 7]
satisfies both hypotheses, and 3 is its first maximal hour. -/
theorem busiest_hour_is_first_max_witness :
    ∃ b, busiest_hour hoursTable = some b ∧ b ∈ hoursOf hoursTable ∧
      (∀ h, (hoursOf hoursTable).count h ≤ (hoursOf hoursTable).count b) ∧
      (∀ h, (hoursOf hoursTable).count h = (hoursOf hoursTable).count b → b ≤ h) :=
  busiest_hour_is_first_max.1 hoursTable (by decide) (by decide)

/-! ### C1: top words in the report versus the chart -/

theorem cnt_bump (w k : String) : ∀ acc : List (String × Nat),
    cnt (bump w acc) k = if k = w then cnt acc k + 1 else cnt acc k := by
  intro acc
  induction acc with
  | nil =>
    by_cases h : k = w
    · subst h; simp [bump, cnt]
    · have h2 : ¬w = k := Ne.symm h
      simp [bump, cnt, h, h2]
  | cons p rest ih =>
    rcases p with ⟨k2, n⟩
    by_cases h2 : k2 = w
    · subst h2
      by_cases h3 : k2 = k
      · subst h3; simp [bump, cnt]
      · have hkw : ¬k = k2 := Ne.symm h3
        simp [bump, cnt, h3, hkw]
    · by_cases h3 : k2 = k
      · subst h3
        simp [bump, cnt, h2]
      · simp [bump, cnt, h2, h3, ih]

theorem cnt_foldl (ws : List String) :
    ∀ (acc : List (String × Nat)) (k : String),
      cnt (ws.foldl (fun acc w => bump w acc) acc) k = cnt acc k + ws.count k := by
  induction ws with
  | nil => intro acc k; simp
  | cons w ws ih =>
    intro acc k
    simp only [List.foldl_cons]
    rw [ih (bump w acc) k, cnt_bump, List.count_cons]
    by_cases hkw : k = w
    · subst hkw
      simp
      omega
    · have hbeq : (w == k) = false := by
        simp [Ne.symm hkw]
      simp [hkw, hbeq]

theorem cnt_counterOf (ws : List String) (k : String) :
    cnt (counterOf ws) k = ws.count k := by
  unfold counterOf
  rw [cnt_foldl ws [] k]
  simp [cnt]

theorem keysOf_bump (w : String) : ∀ acc : List (String × Nat),
    keysOf (bump w acc) =
      if w ∈ keysOf acc then keysOf acc else keysOf acc ++ [w] := by
  intro acc
  induction acc with
  | nil => simp [bump, keysOf]
  | cons p rest ih =>
    rcases p with ⟨k2, n⟩
    by_cases h2 : k2 = w
    · subst h2
      simp [bump, keysOf]
    · have hne : ¬w = k2 := Ne.symm h2
      have hstep : keysOf (bump w ((k2, n) :: rest)) = k2 :: keysOf (bump w rest) := by
        simp [bump, h2, keysOf]
      have hstep2 : keysOf ((k2, n) :: rest) = k2 :: keysOf rest := by
        simp [keysOf]
      rw [hstep, ih, hstep2]
      by_cases hw : w ∈ keysOf rest
      · rw [if_pos hw, if_pos (List.mem_cons_of_mem k2 hw)]
      · rw [if_neg hw, if_neg (by simp [hne, hw]), List.cons_append]

theorem nodup_keys_bump (w : String) (acc : List (String × Nat))
    (h : (keysOf acc).Nodup) : (keysOf (bump w acc)).Nodup := by
  rw [keysOf_bump]
  by_cases hw : w ∈ keysOf acc
  · simpa [hw] using h
  · simp only [hw, if_false]
    simp [List.nodup_append, h, hw]

theorem nodup_keys_counterOf (ws : List String) :
    (keysOf (counterOf ws)).Nodup := by
  have : ∀ acc : List (String × Nat), (keysOf acc).Nodup →
      (keysOf (ws.foldl (fun acc w => bump w acc) acc)).Nodup := by
    induction ws with
    | nil => intro acc h; simpa using h
    | cons w ws ih =>
      intro acc h
      simp only [List.foldl_cons]
      exact ih (bump w acc) (nodup_keys_bump w acc h)
  exact this [] (by simp [keysOf])

theorem cnt_of_mem (k : String) (n : Nat) :
    ∀ c : List (String × Nat), (k, n) ∈ c → (keysOf c).Nodup → n = cnt c k := by
  intro c
  induction c with
  | nil => intro h; cases h
  | cons p rest ih =>
    rcases p with ⟨k2, n2⟩
    intro hmem hnd
    rcases List.mem_cons.mp hmem with heq | hmem2
    · injection heq with h1 h2
      subst h1
      subst h2
      simp [cnt]
    · have hk : k ∈ keysOf rest := by
        unfold keysOf
        exact List.mem_map.mpr ⟨(k, n), hmem2, rfl⟩
      have hcons : (k2 :: keysOf rest).Nodup := by
        have hkeq : keysOf ((k2, n2) :: rest) = k2 :: keysOf rest := by simp [keysOf]
        rw [← hkeq]
        exact hnd
      obtain ⟨hk2, hndrest⟩ := List.nodup_cons.mp hcons
      have hne : ¬k2 = k := fun hh => hk2 (hh ▸ hk)
      rw [cnt, if_neg hne]
      exact ih hmem2 hndrest

theorem mem_insertDesc (p q : String × Nat) :
    ∀ l : List (String × Nat), p ∈ insertDesc q l ↔ p = q ∨ p ∈ l := by
  intro l
  induction l with
  | nil => simp [insertDesc]
  | cons r rs ih =>
    by_cases h : r.2 > q.2
    · simp only [insertDesc, if_pos h, List.mem_cons, ih]
      tauto
    · simp only [insertDesc, if_neg h, List.mem_cons]

theorem mem_sortDesc (p : String × Nat) :
    ∀ c : List (String × Nat), p ∈ sortDesc c ↔ p ∈ c := by
  intro c
  induction c with
  | nil => simp [sortDesc]
  | cons q qs ih =>
    simp only [sortDesc, mem_insertDesc, ih, List.mem_cons]

/-- The true-frequency property behind C1: every entry of a `most_common`
list over `counterOf ws` carries the exact number of occurrences of its
word in `ws`. -/
theorem most_common_counts (k : Nat) (ws : List String) (p : String × Nat)
    (hp : p ∈ most_common k (counterOf ws)) : p.2 = ws.count p.1 := by
  have h1 : p ∈ sortDesc (counterOf ws) := List.take_subset _ _ hp
  have h2 : p ∈ counterOf ws := (mem_sortDesc _ _).mp h1
  rcases p with ⟨w, n⟩
  have := cnt_of_mem w n (counterOf ws) h2 (nodup_keys_counterOf ws)
  rw [this, cnt_counterOf]

/-- Counterexample to C1: on a one-row table whose prompt text is
`"the the cat"`, the report's top-5 list keeps the stop word `the`, so it
differs from the first five entries of the chart's stop-word-filtered
ranking over the same text. -/
theorem report_words_filtered_counterexample :
    report_common_words stopWordTable ≠
      most_common 5 (removeStopWords (chartWordFreq (fileData stopWordTable "chat.json"))) := by
  decide

/-- C1 as amended: the report's top-words list uses the chart's
tokenization and true word frequencies, but applies no stop-word
filtering — it is the first 5 entries of the unfiltered frequency ranking,
and agrees with the chart's stop-word-filtered ranking only when the
filtering removes nothing. -/
theorem report_words_unfiltered (df : List TypedRow) :
    report_common_words df = most_common 5 (chartWordFreq df) ∧
    (∀ p ∈ report_common_words df, p.2 = (tokenize (promptText df)).count p.1) ∧
    (removeStopWords (chartWordFreq df) = chartWordFreq df →
      report_common_words df = most_common 5 (removeStopWords (chartWordFreq df))) := by
  refine ⟨rfl, ?_, fun h => by rw [h]; exact rfl⟩
  intro p hp
  exact most_common_counts 5 (tokenize (promptText df)) p hp

/-- Witness for C1's amended claim: on the scenario table (whose prompts
contain no stop words) the report's list has true counts and equals the
filtered ranking. -/
theorem report_words_unfiltered_witness :
    (∀ p ∈ report_common_words scenarioTable,
      p.2 = (tokenize (promptText scenarioTable)).count p.1) ∧
    report_common_words scenarioTable =
      most_common 5 (removeStopWords (chartWordFreq scenarioTable)) :=
  ⟨(report_words_unfiltered scenarioTable).2.1,
   (report_words_unfiltered scenarioTable).2.2 (by decide)⟩

/-! ### C9: the report's overall statistics -/

/-- C9: on the spec's two-turn scenario the report sees a 2-row table with
one distinct session, a `total_tokens` sum of 40 and a mean of 20. -/
theorem summary_report_scenario :
    process_data [scenarioDoc] = .ok scenarioTable ∧
    total_interactions scenarioTable = 2 ∧
    total_sessions scenarioTable = 1 ∧
    total_tokens_used scenarioTable = 40 ∧
    avg_tokens scenarioTable = 20 := by
  refine ⟨rfl, rfl, by decide, rfl, ?_⟩
  norm_num [avg_tokens, total_tokens_used, scenarioTable, total_interactions]

end ChatAnalyzer
